import Mathlib

/-!
Verification of the behance/pinterest harvest pipeline against its design
spec.  Each Lean definition is a shallow embedding of one Python function of
the repository (file and line references in the doc comments); theorems
named C1..C10 settle the corresponding spec claims.
-/

namespace BehanceSpec

/-! ### Persistence layer
Embeds src/src/storage/project_repository.py and image_repository.py.
A MongoDB collection is modelled as a list of documents in insertion
order.  `model_dump()` output is modelled by the document structures below
(datetimes as integer timestamps, the covers dict as an association list,
HttpUrl already converted to String as the repositories do). -/

/-- ProjectStats model (src/src/models/project.py). -/
structure ProjectStats where
  views : Int
  appreciations : Int
  comments : Int
deriving Repr, DecidableEq

/-- Project document as stored by ProjectRepository (model_dump with url
stringified). -/
structure ProjectDoc where
  id : Int
  title : String
  description : String
  url : String
  published_on : Int
  created_on : Int
  modified_on : Int
  stats : ProjectStats
  tags : List String
  covers : List (String × String)
  owner_id : Int
  owner_username : String
deriving Repr, DecidableEq

/-- Image model (src/src/models/image.py) and the image document stored by
ImageRepository (model_dump with url stringified; the fields coincide). -/
structure Image where
  url : String
  width : Int
  height : Int
  size : Int
  format : String
  project_id : Int
deriving Repr, DecidableEq

/-- Mongo update_one(filter = id eq k, set = all fields of doc, upsert=True):
replace the first document matching the filter with doc (the set document
lists every field, so the match is fully replaced); insert doc when no
document matches. -/
def updateOneUpsert (k : Int) (doc : ProjectDoc) : List ProjectDoc → List ProjectDoc
  | [] => [doc]
  | d :: ds => if d.id = k then doc :: ds else d :: updateOneUpsert k doc ds

/-- ProjectRepository.upsert (project_repository.py lines 117-131):
update_one keyed by the project id with upsert=True. -/
def ProjectRepository.upsert (p : ProjectDoc) (c : List ProjectDoc) : List ProjectDoc :=
  updateOneUpsert p.id p c

/-- ImageRepository.save_many (image_repository.py lines 69-84): builds the
dicts and calls insert_many, which appends every document to the
collection unconditionally. -/
def ImageRepository.save_many (images : List Image) (c : List Image) : List Image :=
  c ++ images

/-- Number of stored project documents with the given natural key (id). -/
def countProjectKey (c : List ProjectDoc) (k : Int) : Nat :=
  (c.filter (fun d => d.id == k)).length

/-- Number of stored image documents with the given natural key
(owning project id + source url). -/
def countImageKey (c : List Image) (pid : Int) (u : String) : Nat :=
  (c.filter (fun d => d.project_id == pid && d.url == u)).length

/-! ### Session-restore authentication
Embeds PinterestAuthenticator.login_with_cookies
(src/src/auth/pinterest_auth.py lines 269-301).  The fallible steps of the
body (file existence test, json.load, context.add_cookies) are modelled as
boolean outcomes; `probeWouldPass` records whether a logged-in probe on the
context would succeed, were one performed — the source never performs
one, which is exactly what the field lets the theorems express. -/

structure SessionRestoreEnv where
  cookiesFileExists : Bool
  cookiesParseOk : Bool
  addCookiesOk : Bool
  probeWouldPass : Bool
deriving Repr, DecidableEq

/-- login_with_cookies: returns False when the file is missing or any step
raises (the except branch), and True immediately after add_cookies
succeeds.  No logged-in probe is consulted. -/
def login_with_cookies (env : SessionRestoreEnv) : Bool :=
  if !env.cookiesFileExists then false
  else if !env.cookiesParseOk then false
  else if !env.addCookiesOk then false
  else true

/-! ### Paginated collection loop
Embeds the per-item loop of BehanceScraper.scrape_search
(src/scripts/scrape_behance.py lines 130-149).  `fails url = true` models
scrape_project raising for that url.  State fields: `processed` is the
processed_projects set (a set of urls, modelled as a duplicate-free list),
`count` the local success counter, `attempted` the urls for which
scrape_project was invoked (in order), `scrapedOk` the urls scraped
successfully (in order), `errors` the number of per-item exceptions caught
(printed in scrape_behance.py; counted in stats by the analogous loop of
src/cron_scraper.py lines 125-168). -/

structure SearchLoopState where
  processed : List String
  count : Nat
  attempted : List String
  scrapedOk : List String
  errors : Nat
deriving Repr, DecidableEq

/-- The scrape_search loop body: skip urls already processed; otherwise call
scrape_project; on success add to processed and bump count; on an
exception record the error and continue with the next url. -/
def scrapeSearchLoop (fails : String → Bool) : List String → SearchLoopState → SearchLoopState
  | [], s => s
  | url :: rest, s =>
    if url ∈ s.processed then
      scrapeSearchLoop fails rest s
    else if fails url then
      scrapeSearchLoop fails rest
        { s with attempted := s.attempted ++ [url], errors := s.errors + 1 }
    else
      scrapeSearchLoop fails rest
        { s with attempted := s.attempted ++ [url],
                 processed := s.processed ++ [url],
                 scrapedOk := s.scrapedOk ++ [url],
                 count := s.count + 1 }

/-! ### Media fetch pipeline
Embeds ImagePipeline (src/src/storage/image_pipeline.py).  The MD5 hex
digest is modelled as an abstract function argument `md5hex` (the claims
concern determinism and shape of the name, both independent of the digest
function); the network and filesystem effects of one download are modelled
by a `FetchStep` outcome per url. -/

/-- Outcome of the fallible steps inside the download_image try block:
ensure_output_dir, the http get / raise_for_status, and the file write.
Every exception carries the message str(e). -/
inductive FetchStep where
  | ok : FetchStep
  | mkdirError (msg : String) : FetchStep
  | httpError (msg : String) : FetchStep
  | writeError (msg : String) : FetchStep
deriving Repr, DecidableEq

/-- The message of a failing step, none when the step chain succeeded. -/
def stepError : FetchStep → Option String
  | .ok => none
  | .mkdirError m => some m
  | .httpError m => some m
  | .writeError m => some m

/-- ImageDownloadResult model (image_pipeline.py lines 14-20). -/
structure ImageDownloadResult where
  success : Bool
  url : String
  local_path : Option String
  error_message : Option String
deriving Repr, DecidableEq

/-- Characters of the list before the first occurrence of c. -/
def takeUntilChar (c : Char) : List Char → List Char
  | [] => []
  | x :: xs => if x = c then [] else x :: takeUntilChar c xs

/-- Characters after the first occurrence of c; none when c is absent. -/
def dropThroughChar (c : Char) : List Char → Option (List Char)
  | [] => none
  | x :: xs => if x = c then some xs else dropThroughChar c xs

/-- Split a character list on a separator character. -/
def splitChar (sep : Char) : List Char → List (List Char)
  | [] => [[]]
  | c :: cs =>
    if c = sep then [] :: splitChar sep cs
    else
      match splitChar sep cs with
      | [] => [[c]]
      | r :: rs => (c :: r) :: rs

/-- urllib.parse.urlparse(url).path for http(s)-style urls: the fragment
and query are split off; a leading scheme: is recognised when the text
before the first colon holds no slash and no question mark, and a
scheme://netloc prefix makes the path start at the first slash (or end at
the first question mark) after the netloc. -/
def urlparse_path (url : String) : String :=
  let noFrag := takeUntilChar '#' url.data
  let schemeCand := takeUntilChar ':' noFrag
  match dropThroughChar ':' noFrag with
  | none => String.mk (takeUntilChar '?' noFrag)
  | some rest =>
    if '/' ∈ schemeCand ∨ '?' ∈ schemeCand then
      String.mk (takeUntilChar '?' noFrag)
    else
      match rest with
      | '/' :: '/' :: tail =>
        let pathStart := tail.dropWhile (fun ch => ch != '/' && ch != '?')
        String.mk (takeUntilChar '?' pathStart)
      | _ => String.mk (takeUntilChar '?' rest)

/-- pathlib PurePosixPath(p).name: the last path component, where empty
components (repeated or trailing slashes) and single-dot components are
dropped by the path parser. -/
def path_name (p : String) : String :=
  let comps := (splitChar '/' p.data).filter (fun c => !c.isEmpty && c != ['.'])
  match comps.getLast? with
  | some c => String.mk c
  | none => ""

/-- pathlib PurePath(p).suffix: the extension of the final component, i.e.
the part of name from its last dot, empty when the last dot is absent, at
position 0 (hidden file) or at the very end (trailing dot). -/
def path_suffix (p : String) : String :=
  let nm := (path_name p).data
  match splitChar '.' nm with
  | [] => ""
  | [_] => ""
  | parts =>
    if parts.getLastD [] = [] then ""
    else if parts.length = 2 && (parts.headD []).isEmpty then ""
    else String.mk ('.' :: parts.getLastD [])

/-- ImagePipeline.generate_filename (image_pipeline.py lines 97-121): md5
hex digest of the url, followed by the suffix of the parsed url path,
defaulting to ".jpg" when the path has no suffix. -/
def generate_filename (md5hex : String → String) (url : String) : String :=
  let path := urlparse_path url
  let extension := path_suffix path
  let ext := if extension = "" then ".jpg" else extension
  md5hex url ++ ext

/-- ImagePipeline.download_image (image_pipeline.py lines 34-78): the whole
body is wrapped in try/except; success yields local_path output_dir /
filename, any exception yields a failure result holding str(e).  It never
raises: every FetchStep maps to a result. -/
def download_image (md5hex : String → String) (env : String → FetchStep)
    (output_dir : String) (url : String) : ImageDownloadResult :=
  match env url with
  | .ok =>
    { success := true, url := url,
      local_path := some (output_dir ++ "/" ++ generate_filename md5hex url),
      error_message := none }
  | step =>
    { success := false, url := url, local_path := none,
      error_message := stepError step }

/-- ImagePipeline.download_many (image_pipeline.py lines 80-95): one task
per url, gathered in input order by asyncio.gather, which returns results
positionally aligned with its argument list. -/
def download_many (md5hex : String → String) (env : String → FetchStep)
    (output_dir : String) (urls : List String) : List ImageDownloadResult :=
  urls.map (download_image md5hex env output_dir)

/-! ### Authentication strategy chain
Embeds the authentication section of PinterestScraper.scrape_profile
(src/scrape_pinterest_images.py lines 174-197) over the three strategies of
PinterestAuthenticator (src/src/auth/pinterest_auth.py): login_with_cookies,
login_with_google, login.  Each authenticator method wraps its whole body
in try/except and returns False on any internal exception, so a strategy
can end in success, an ordinary False, or a caught fault — the last two
are indistinguishable to the caller. -/

inductive StrategyOutcome where
  | success : StrategyOutcome
  | failed : StrategyOutcome
  | fault (msg : String) : StrategyOutcome
deriving Repr, DecidableEq

/-- The boolean an authenticator method returns for an outcome: True only
on success; a failure or a caught internal fault both return False. -/
def strategyReturns : StrategyOutcome → Bool
  | .success => true
  | .failed => false
  | .fault _ => false

inductive Strategy where
  | cookies : Strategy
  | google : Strategy
  | direct : Strategy
deriving Repr, DecidableEq

structure AuthEnv where
  cookiesOutcome : StrategyOutcome
  googleOutcome : StrategyOutcome
  directOutcome : StrategyOutcome
deriving Repr, DecidableEq

/-- Result of the scrape_profile authentication section: the logged_in
flag, the strategies attempted in order, whether the not-logged-in warning
was printed, and whether cookies were saved for future runs. -/
structure AuthResult where
  loggedIn : Bool
  attempted : List Strategy
  warnedNotLoggedIn : Bool
  savedCookies : Bool
deriving Repr, DecidableEq

/-- scrape_profile lines 174-197: cookies strategy when a cookies_path is
configured; google then direct strategies only when still not logged in
and credentials are configured, direct only after google failed; cookies
saved on fresh success; when nothing succeeded the code prints a warning
and proceeds unauthenticated rather than raising. -/
def scrapeProfileAuth (hasCookiesPath hasEmail hasPassword : Bool)
    (env : AuthEnv) : AuthResult :=
  let step1 :=
    if hasCookiesPath then (strategyReturns env.cookiesOutcome, [Strategy.cookies])
    else (false, [])
  let step2 :=
    if !step1.1 && hasEmail && hasPassword then
      let g := strategyReturns env.googleOutcome
      if g then (true, [Strategy.google], hasCookiesPath)
      else
        let d := strategyReturns env.directOutcome
        (d, [Strategy.google, Strategy.direct], d && hasCookiesPath)
    else (step1.1, [], false)
  { loggedIn := step2.1, attempted := step1.2 ++ step2.2.1,
    warnedNotLoggedIn := !step2.1, savedCookies := step2.2.2 }

/-! ### Scroll-to-load pagination
Embeds SearchExtractor.scroll_to_load_more (src/src/extractors/search.py
lines 102-120) and PinterestPinExtractor._scroll_to_load
(src/src/extractors/pinterest.py lines 302-306).  The page is an abstract
state S; the for-range loop is structural recursion on the count.  The Nat
in the result counts the scroll-advance attempts performed. -/

structure ScrollSurface (S : Type) where
  scrollAndSettle : S → S
  hasLoadMoreButton : S → Bool
  clickLoadMore : S → S

/-- scroll_to_load_more: for i in range(scroll_count): scroll to bottom,
settle, click a Load More button when present. -/
def scroll_to_load_more {S : Type} (pg : ScrollSurface S) : Nat → S → S × Nat
  | 0, s => (s, 0)
  | n + 1, s =>
    let s1 := pg.scrollAndSettle s
    let s2 := if pg.hasLoadMoreButton s1 then pg.clickLoadMore s1 else s1
    let r := scroll_to_load_more pg n s2
    (r.1, r.2 + 1)

/-- Pinterest _scroll_to_load: for each of `scrolls` rounds, scroll to the
bottom and settle. -/
def scroll_to_load {S : Type} (step : S → S) : Nat → S → S × Nat
  | 0, s => (s, 0)
  | n + 1, s =>
    let r := scroll_to_load step n (step s)
    (r.1, r.2 + 1)

/-! ### Image model validation and format extraction
Embeds the pydantic Image model (src/src/models/image.py) and
ImageExtractor.extract_format (src/src/extractors/image.py lines 180-205).
Pydantic construction is modelled as an Option-returning smart
constructor applying the declared field constraints (gt=0 on width and
height) and the format field validator; the HttpUrl check on url is not
relevant to any claim and the url is kept as a plain string. -/

def valid_formats : List String := ["jpg", "jpeg", "png", "gif", "webp", "svg"]

/-- Python str.lower(), applied character by character (the strings the
claims concern are ASCII format names and urls). -/
def strToLower (s : String) : String :=
  String.mk (s.data.map Char.toLower)

/-- Image.validate_format: lowercases the value and accepts it only when
the lowercase form is one of the supported formats. -/
def validate_format (v : String) : Option String :=
  if strToLower v ∈ valid_formats then some (strToLower v) else none

/-- Pydantic construction of Image: width and height must satisfy gt=0 and
the format must pass validate_format (stored lowercased). -/
def mkImage (url : String) (width height size : Int) (fmt : String)
    (project_id : Int) : Option Image :=
  if 0 < width then
    if 0 < height then
      match validate_format fmt with
      | some f =>
        some { url := url, width := width, height := height, size := size,
               format := f, project_id := project_id }
      | none => none
    else none
  else none

/-- Image.aspect_ratio: width / height.  The source computes a Python
float; the exact rational captures the same division and the claims about
it concern only totality, not rounding. -/
def Image.aspect_ratio (i : Image) : ℚ :=
  (i.width : ℚ) / (i.height : ℚ)

/-- Whether the first list is a prefix of the second. -/
def listIsPrefix : List Char → List Char → Bool
  | [], _ => true
  | _ :: _, [] => false
  | a :: as, b :: bs => a == b && listIsPrefix as bs

/-- Whether pat occurs as a contiguous run inside s. -/
def listContains (s pat : List Char) : Bool :=
  match s with
  | [] => pat.isEmpty
  | _ :: rest => listIsPrefix pat s || listContains rest pat

/-- Python substring containment: pat in s. -/
def strContains (s pat : String) : Bool :=
  listContains s.data pat.data

/-- ImageExtractor.extract_format: scan the lowercased url for known
extension substrings, defaulting to "jpg". -/
def extract_format (url : String) : String :=
  let url_lower := strToLower url
  if strContains url_lower ".jpg" || strContains url_lower ".jpeg" then "jpg"
  else if strContains url_lower ".png" then "png"
  else if strContains url_lower ".gif" then "gif"
  else if strContains url_lower ".webp" then "webp"
  else if strContains url_lower ".svg" then "svg"
  else "jpg"

/-! ## Theorems -/

/-! ### C1: upsert convergence -/

/-- Replacing-or-inserting the same document twice equals doing it once,
when the document carries the filter key. -/
lemma updateOneUpsert_idem (k : Int) (doc : ProjectDoc) (hdoc : doc.id = k)
    (c : List ProjectDoc) :
    updateOneUpsert k doc (updateOneUpsert k doc c) = updateOneUpsert k doc c := by
  induction c with
  | nil => simp [updateOneUpsert, hdoc]
  | cons d ds ih =>
    by_cases h : d.id = k
    · simp [updateOneUpsert, h, hdoc]
    · simp [updateOneUpsert, h, ih]

/-- Unfolding countProjectKey over a cons cell. -/
lemma countProjectKey_cons (d : ProjectDoc) (ds : List ProjectDoc) (k : Int) :
    countProjectKey (d :: ds) k =
      countProjectKey ds k + if d.id = k then 1 else 0 := by
  by_cases h : d.id = k <;> simp [countProjectKey, List.filter_cons, h]

/-- After an upsert keyed by k with a document whose id is k, the number of
stored documents with key k is the old count, floored at one. -/
lemma countProjectKey_upsert (k : Int) (doc : ProjectDoc) (hdoc : doc.id = k)
    (c : List ProjectDoc) :
    countProjectKey (updateOneUpsert k doc c) k = max (countProjectKey c k) 1 := by
  induction c with
  | nil => simp [countProjectKey, updateOneUpsert, hdoc]
  | cons d ds ih =>
    rw [updateOneUpsert]
    by_cases h : d.id = k
    · rw [if_pos h, countProjectKey_cons, countProjectKey_cons, if_pos hdoc, if_pos h]
      omega
    · rw [if_neg h, countProjectKey_cons, countProjectKey_cons, if_neg h, ih]
      omega

/-- C1 counterexample: the claim says every persistence write is an upsert
on the natural key, so re-applying ImageRepository.save_many with the same
single image leaves exactly one stored document for that key.  On the
concrete store it leaves two: save_many is insert_many, a plain append. -/
theorem C1_counterexample :
    countImageKey
      (ImageRepository.save_many [⟨"https://e/a.jpg", 10, 5, 0, "jpg", 7⟩]
        (ImageRepository.save_many [⟨"https://e/a.jpg", 10, 5, 0, "jpg", 7⟩] []))
      7 "https://e/a.jpg" = 2 ∧
    ¬ countImageKey
        (ImageRepository.save_many [⟨"https://e/a.jpg", 10, 5, 0, "jpg", 7⟩]
          (ImageRepository.save_many [⟨"https://e/a.jpg", 10, 5, 0, "jpg", 7⟩] []))
        7 "https://e/a.jpg" = 1 := by
  decide

/-- C1 (amended): ProjectRepository.upsert is an idempotent upsert keyed by
the project id — applying it twice with an identical project equals
applying it once, and (when the store held at most one document for that
id) exactly one document for the id remains; ImageRepository.save_many,
however, is a plain bulk insert that appends one document per input image
unconditionally, so re-running it duplicates image documents instead of
upserting them. -/
theorem C1_upsert_semantics (p : ProjectDoc) (c : List ProjectDoc)
    (h : countProjectKey c p.id ≤ 1) (images : List Image) (c2 : List Image) :
    ProjectRepository.upsert p (ProjectRepository.upsert p c) =
      ProjectRepository.upsert p c ∧
    countProjectKey (ProjectRepository.upsert p c) p.id = 1 ∧
    ImageRepository.save_many images c2 = c2 ++ images := by
  refine ⟨updateOneUpsert_idem _ _ rfl _, ?_, rfl⟩
  rw [ProjectRepository.upsert, countProjectKey_upsert _ _ rfl]
  omega

/-- Concrete project document used by the C1 witness. -/
def sampleProject : ProjectDoc :=
  ⟨1, "t", "d", "https://www.behance.net/gallery/1/t", 0, 0, 0, ⟨0, 0, 0⟩,
   [], [], 5, "owner"⟩

/-- Concrete image document used by the C1 witness. -/
def sampleImage : Image := ⟨"https://e/a.jpg", 10, 5, 0, "jpg", 7⟩

/-- Witness for C1_upsert_semantics on the empty store. -/
theorem C1_witness :
    countProjectKey ([] : List ProjectDoc) sampleProject.id ≤ 1 ∧
    (ProjectRepository.upsert sampleProject (ProjectRepository.upsert sampleProject []) =
       ProjectRepository.upsert sampleProject [] ∧
     countProjectKey (ProjectRepository.upsert sampleProject []) sampleProject.id = 1 ∧
     ImageRepository.save_many [sampleImage] [] = [] ++ [sampleImage]) :=
  ⟨by decide, C1_upsert_semantics sampleProject [] (by decide) [sampleImage] []⟩

/-! ### C2: session-restore success criterion -/

/-- C2 counterexample: the claim says the session-restore strategy reports
success only when a logged-in probe passes.  In the environment where the
cookies file exists, parses, and loads, but any probe would fail,
login_with_cookies still reports success: the source returns True right
after add_cookies and consults no probe. -/
theorem C2_counterexample :
    login_with_cookies ⟨true, true, true, false⟩ = true ∧
    (SessionRestoreEnv.mk true true true false).probeWouldPass = false := by
  decide

/-- C2 (amended): login_with_cookies reports success exactly when the
cookies file exists and parsing and loading raise no error; no logged-in
probe is involved, so its success does not witness a logged-in session. -/
theorem C2_login_with_cookies_no_probe (env : SessionRestoreEnv) :
    login_with_cookies env =
      (env.cookiesFileExists && env.cookiesParseOk && env.addCookiesOk) := by
  rcases env with ⟨a, b, c, d⟩
  cases a <;> cases b <;> cases c <;> rfl

/-! ### C3 and C7: collection loop fault isolation and dedup -/

/-- The processed set only grows along the loop. -/
lemma scrapeSearchLoop_processed_mono (fails : String → Bool) (links : List String)
    (s : SearchLoopState) (x : String) (hx : x ∈ s.processed) :
    x ∈ (scrapeSearchLoop fails links s).processed := by
  induction links generalizing s with
  | nil => exact hx
  | cons url rest ih =>
    rw [scrapeSearchLoop]
    by_cases hp : url ∈ s.processed
    · rw [if_pos hp]; exact ih s hx
    · rw [if_neg hp]
      by_cases hf : fails url
      · rw [if_pos hf]; exact ih _ hx
      · rw [if_neg hf]
        exact ih _ (by simpa using Or.inl hx)

/-- The successfully-scraped list only grows along the loop. -/
lemma scrapeSearchLoop_scrapedOk_mono (fails : String → Bool) (links : List String)
    (s : SearchLoopState) (x : String) (hx : x ∈ s.scrapedOk) :
    x ∈ (scrapeSearchLoop fails links s).scrapedOk := by
  induction links generalizing s with
  | nil => exact hx
  | cons url rest ih =>
    rw [scrapeSearchLoop]
    by_cases hp : url ∈ s.processed
    · rw [if_pos hp]; exact ih s hx
    · rw [if_neg hp]
      by_cases hf : fails url
      · rw [if_pos hf]; exact ih _ hx
      · rw [if_neg hf]
        exact ih _ (by simpa using Or.inl hx)

/-- Every listed url whose extraction does not fail and that is not already
in the processed set ends up scraped. -/
lemma scrapeSearchLoop_ok_scraped (fails : String → Bool) (links : List String)
    (s : SearchLoopState) (u : String) (hu : u ∈ links) (hf : fails u = false)
    (hp : u ∉ s.processed) :
    u ∈ (scrapeSearchLoop fails links s).scrapedOk := by
  induction links generalizing s with
  | nil => cases hu
  | cons url rest ih =>
    rw [scrapeSearchLoop]
    rcases List.mem_cons.mp hu with heq | hrest
    · subst heq
      rw [if_neg hp, if_neg (by simp [hf])]
      exact scrapeSearchLoop_scrapedOk_mono _ _ _ _ (by simp)
    · by_cases hpu : url ∈ s.processed
      · rw [if_pos hpu]; exact ih s hrest hp
      · rw [if_neg hpu]
        by_cases hfu : fails url
        · rw [if_pos hfu]; exact ih _ hrest hp
        · rw [if_neg hfu]
          by_cases huu : u = url
          · subst huu
            exact scrapeSearchLoop_scrapedOk_mono _ _ _ _ (by simp)
          · exact ih _ hrest (by simp [hp, huu])

/-- With extraction failing exactly on k, the error counter grows by one
per listed occurrence of k (k is retried on every occurrence, since a
failing item is never added to the processed set). -/
lemma scrapeSearchLoop_errors_eq (k : String) (links : List String)
    (s : SearchLoopState) (hk : k ∉ s.processed) :
    (scrapeSearchLoop (fun v => v == k) links s).errors = s.errors + links.count k := by
  induction links generalizing s with
  | nil => simp [scrapeSearchLoop]
  | cons url rest ih =>
    rw [scrapeSearchLoop]
    by_cases heq : url = k
    · subst heq
      rw [if_neg hk, if_pos (by simp)]
      have h2 := ih ⟨s.processed, s.count, s.attempted ++ [url], s.scrapedOk,
        s.errors + 1⟩ (by simpa using hk)
      rw [h2]
      simp [List.count_cons]
      omega
    · have hkne : ¬(k = url) := fun h => heq h.symm
      have hcount : (url :: rest).count k = rest.count k := by
        simp [List.count_cons, beq_iff_eq, hkne]
      by_cases hpu : url ∈ s.processed
      · have h2 := ih s hk
        rw [if_pos hpu, h2, hcount]
      · rw [if_neg hpu, if_neg (by simp [heq])]
        have h2 := ih ⟨s.processed ++ [url], s.count + 1, s.attempted ++ [url],
            s.scrapedOk ++ [url], s.errors⟩ (by simp [hk, hkne])
        rw [h2, hcount]

/-- A url whose extraction fails is never added to the processed set. -/
lemma scrapeSearchLoop_fail_not_processed (k : String) (links : List String)
    (s : SearchLoopState) (hk : k ∉ s.processed) :
    k ∉ (scrapeSearchLoop (fun v => v == k) links s).processed := by
  induction links generalizing s with
  | nil => exact hk
  | cons url rest ih =>
    rw [scrapeSearchLoop]
    by_cases hpu : url ∈ s.processed
    · rw [if_pos hpu]; exact ih s hk
    · rw [if_neg hpu]
      by_cases heq : url = k
      · subst heq
        rw [if_pos (by simp)]
        exact ih _ hk
      · rw [if_neg (by simp [heq])]
        exact ih _ (by simp [hk, Ne.symm heq])

/-- A url in the processed set at loop start is never handed to
scrape_project during the loop. -/
lemma scrapeSearchLoop_seen_not_attempted (fails : String → Bool)
    (links : List String) (s : SearchLoopState) (k : String)
    (hk : k ∈ s.processed) (ha : k ∉ s.attempted) :
    k ∉ (scrapeSearchLoop fails links s).attempted := by
  induction links generalizing s with
  | nil => exact ha
  | cons url rest ih =>
    rw [scrapeSearchLoop]
    by_cases hpu : url ∈ s.processed
    · rw [if_pos hpu]; exact ih s hk ha
    · have hne : k ≠ url := fun h => hpu (h ▸ hk)
      rw [if_neg hpu]
      by_cases hfu : fails url
      · rw [if_pos hfu]
        exact ih _ hk (by simp [ha, hne])
      · rw [if_neg hfu]
        exact ih _ (by simp [hk]) (by simp [ha, hne])

/-- C3 counterexample: the claim says a faulting item is marked seen and
never retried within the run.  On the concrete listing with u2 failing,
u2 is absent from the processed set after the loop (only successes are
added), and when the listing surfaces u2 twice its extraction is attempted
— and fails — twice in the same run. -/
theorem C3_counterexample :
    "u2" ∉ (scrapeSearchLoop (fun v => v == "u2") ["u1", "u2", "u3"]
      ⟨[], 0, [], [], 0⟩).processed ∧
    (scrapeSearchLoop (fun v => v == "u2") ["u2", "u2"] ⟨[], 0, [], [], 0⟩).errors = 2 := by
  decide

/-- C3 (amended): when extraction of item k faults, the loop records the
error and continues — every other new, non-failing listed item is still
scraped, and the error counter grows by exactly one per occurrence of k —
but the failing item is NOT added to the processed set, so it is retried
on any further occurrence within the run. -/
theorem C3_fault_isolation (links : List String) (k : String)
    (s : SearchLoopState) (hk : k ∉ s.processed) :
    (∀ u, u ∈ links → u ≠ k → u ∉ s.processed →
       u ∈ (scrapeSearchLoop (fun v => v == k) links s).scrapedOk) ∧
    (scrapeSearchLoop (fun v => v == k) links s).errors = s.errors + links.count k ∧
    k ∉ (scrapeSearchLoop (fun v => v == k) links s).processed := by
  refine ⟨fun u hu hne hp =>
      scrapeSearchLoop_ok_scraped _ _ _ _ hu (by simp [hne]) hp,
    scrapeSearchLoop_errors_eq _ _ _ hk,
    scrapeSearchLoop_fail_not_processed _ _ _ hk⟩

/-- Fresh collection state used by the C3 witness. -/
def emptySearchState : SearchLoopState := ⟨[], 0, [], [], 0⟩

/-- Witness for C3_fault_isolation on a three-item listing whose middle
item fails. -/
theorem C3_witness :
    "u2" ∉ emptySearchState.processed ∧
    "u1" ∈ (scrapeSearchLoop (fun v => v == "u2") ["u1", "u2", "u3"]
      emptySearchState).scrapedOk ∧
    (scrapeSearchLoop (fun v => v == "u2") ["u1", "u2", "u3"] emptySearchState).errors =
      emptySearchState.errors + (["u1", "u2", "u3"] : List String).count "u2" ∧
    "u2" ∉ (scrapeSearchLoop (fun v => v == "u2") ["u1", "u2", "u3"]
      emptySearchState).processed := by
  have t := C3_fault_isolation ["u1", "u2", "u3"] "u2" emptySearchState (by decide)
  exact ⟨by decide, t.1 "u1" (by decide) (by decide) (by decide), t.2.1, t.2.2⟩

/-- C7: an item key in the processed set at the start of collection is
skipped — scrape_project is never invoked on it during the run — and the
processed set only grows: every key it held at the start it still holds
at the end. -/
theorem C7_dedup_monotone (fails : String → Bool) (links : List String)
    (s : SearchLoopState) (k : String) (hk : k ∈ s.processed)
    (ha : k ∉ s.attempted) :
    k ∉ (scrapeSearchLoop fails links s).attempted ∧
    (∀ u, u ∈ s.processed → u ∈ (scrapeSearchLoop fails links s).processed) :=
  ⟨scrapeSearchLoop_seen_not_attempted fails links s k hk ha,
   fun u hu => scrapeSearchLoop_processed_mono fails links s u hu⟩

/-- Collection state seeded with one already-processed key, for the C7
witness. -/
def seededSearchState : SearchLoopState := ⟨["u1"], 0, [], [], 0⟩

/-- Witness for C7_dedup_monotone: u1 was processed before the run and is
neither re-attempted nor dropped. -/
theorem C7_witness :
    "u1" ∈ seededSearchState.processed ∧ "u1" ∉ seededSearchState.attempted ∧
    "u1" ∉ (scrapeSearchLoop (fun _ => false) ["u1", "u2"] seededSearchState).attempted ∧
    "u1" ∈ (scrapeSearchLoop (fun _ => false) ["u1", "u2"] seededSearchState).processed := by
  have t := C7_dedup_monotone (fun _ => false) ["u1", "u2"] seededSearchState "u1"
    (by decide) (by decide)
  exact ⟨by decide, by decide, t.1, t.2 "u1" (by decide)⟩

/-! ### C4: download_many cardinality, alignment, failure capture -/

/-- A download result always carries the url it was asked for. -/
lemma download_image_url (m : String → String) (e : String → FetchStep)
    (d u : String) : (download_image m e d u).url = u := by
  unfold download_image
  split <;> rfl

/-- C4: download_many returns exactly one result per input url, positionally
aligned (the i-th result carries the i-th input url), and download_image is
total — a failing step never escapes as a fault but becomes a result with
success=false carrying the step's error message, each result depending only
on its own url's outcome. -/
theorem C4_download_many_aligned (m : String → String) (e : String → FetchStep)
    (d : String) (urls : List String) :
    (download_many m e d urls).length = urls.length ∧
    (∀ i : Nat, ((download_many m e d urls).get? i).map ImageDownloadResult.url =
      urls.get? i) ∧
    (∀ u msg, stepError (e u) = some msg →
      download_image m e d u =
        { success := false, url := u, local_path := none,
          error_message := some msg }) := by
  refine ⟨by simp [download_many], fun i => ?_, fun u msg hmsg => ?_⟩
  · rw [download_many, List.get?_map]
    cases h : urls.get? i with
    | none => rfl
    | some u => simp [download_image_url]
  · unfold download_image
    cases h : e u with
    | ok => rw [h] at hmsg; simp [stepError] at hmsg
    | mkdirError mm => rw [h] at hmsg; simp [stepError] at hmsg; rw [hmsg]; rfl
    | httpError mm => rw [h] at hmsg; simp [stepError] at hmsg; rw [hmsg]; rfl
    | writeError mm => rw [h] at hmsg; simp [stepError] at hmsg; rw [hmsg]; rfl

/-- Witness for C4_download_many_aligned: a one-url batch whose fetch
raises is captured as a failure result. -/
theorem C4_witness :
    stepError ((fun _ => FetchStep.httpError "boom") "https://e/x.png") = some "boom" ∧
    download_image (fun _ => "H") (fun _ => FetchStep.httpError "boom") "out"
        "https://e/x.png" =
      { success := false, url := "https://e/x.png", local_path := none,
        error_message := some "boom" } :=
  ⟨rfl, (C4_download_many_aligned (fun _ => "H") (fun _ => FetchStep.httpError "boom")
    "out" ["https://e/x.png"]).2.2 "https://e/x.png" "boom" rfl⟩

/-! ### C5: deterministic media naming -/

/-- C5: generate_filename is a pure function of the url — two calls agree —
and the name is the digest of the url followed by the parsed path's
extension hint, defaulting to ".jpg" when the path has none, so re-fetching
the same url targets the same local path. -/
theorem C5_generate_filename_pure (md5hex : String → String) (u : String) :
    generate_filename md5hex u = generate_filename md5hex u ∧
    generate_filename md5hex u =
      md5hex u ++ (if path_suffix (urlparse_path u) = "" then ".jpg"
                   else path_suffix (urlparse_path u)) ∧
    (path_suffix (urlparse_path u) = "" →
      generate_filename md5hex u = md5hex u ++ ".jpg") := by
  refine ⟨rfl, rfl, fun h => ?_⟩
  simp [generate_filename, h]

/-- Witness for C5_generate_filename_pure on an extension-less url. -/
theorem C5_witness :
    path_suffix (urlparse_path "https://x.com/img") = "" ∧
    generate_filename (fun _ => "H") "https://x.com/img" = "H" ++ ".jpg" :=
  ⟨by decide, (C5_generate_filename_pure (fun _ => "H") "https://x.com/img").2.2
    (by decide)⟩

/-! ### C6: authentication strategy chain -/

/-- C6: with a cookies path and credentials configured, the strategies are
attempted in the fixed order cookies, google, direct, each later one only
when the earlier ones yielded no session; an internal strategy fault
returns False rather than propagating; and the flow always produces a
result — when nothing succeeded it reports not-logged-in and prints the
warning instead of raising. -/
theorem C6_auth_strategy_chain (env : AuthEnv) :
    (scrapeProfileAuth true true true env).attempted =
      (if strategyReturns env.cookiesOutcome then [Strategy.cookies]
       else if strategyReturns env.googleOutcome then [Strategy.cookies, Strategy.google]
       else [Strategy.cookies, Strategy.google, Strategy.direct]) ∧
    (scrapeProfileAuth true true true env).loggedIn =
      (strategyReturns env.cookiesOutcome || strategyReturns env.googleOutcome ||
       strategyReturns env.directOutcome) ∧
    strategyReturns (StrategyOutcome.fault "internal error") = false ∧
    ((scrapeProfileAuth true true true env).loggedIn = false →
      (scrapeProfileAuth true true true env).warnedNotLoggedIn = true) := by
  rcases env with ⟨c, g, d⟩
  cases c <;> cases g <;> cases d <;>
    simp [scrapeProfileAuth, strategyReturns]

/-- Witness for C6_auth_strategy_chain: all three strategies fault
internally; the run still gets a result, unauthenticated, with the warning
recorded and all three strategies having been tried in order. -/
theorem C6_witness :
    (scrapeProfileAuth true true true ⟨.fault "x", .fault "y", .fault "z"⟩).loggedIn
      = false ∧
    (scrapeProfileAuth true true true
      ⟨.fault "x", .fault "y", .fault "z"⟩).warnedNotLoggedIn = true ∧
    (scrapeProfileAuth true true true ⟨.fault "x", .fault "y", .fault "z"⟩).attempted =
      [Strategy.cookies, Strategy.google, Strategy.direct] := by
  have t := C6_auth_strategy_chain ⟨.fault "x", .fault "y", .fault "z"⟩
  exact ⟨by decide, t.2.2.2 (by decide), by decide⟩

/-! ### C8: bounded scroll pagination -/

/-- C8: both scroll loops perform exactly their configured number of
scroll-advance attempts and then stop, for every page behavior — including
a page that never grows (any stepping functions whatsoever, identity
included) — so collection never waits on growth indefinitely. -/
theorem C8_scroll_loops_bounded {S T : Type} (pg : ScrollSurface S) (n : Nat)
    (s : S) (step : T → T) (m : Nat) (t : T) :
    (scroll_to_load_more pg n s).2 = n ∧ (scroll_to_load step m t).2 = m := by
  constructor
  · induction n generalizing s with
    | zero => rfl
    | succ j ih => simp [scroll_to_load_more, ih]
  · induction m generalizing t with
    | zero => rfl
    | succ j ih => simp [scroll_to_load, ih]

/-! ### C9: Image model invariants -/

/-- C9: a successfully constructed Image has positive width and height and
a supported, lowercased format, so aspect_ratio divides by a nonzero
height and recovers width when multiplied back — it is total on valid
images. -/
theorem C9_image_invariants (url : String) (w h sz : Int) (fmt : String)
    (pid : Int) (img : Image) (heq : mkImage url w h sz fmt pid = some img) :
    0 < img.width ∧ 0 < img.height ∧ img.format ∈ valid_formats ∧
    img.format = strToLower fmt ∧ (img.height : ℚ) ≠ 0 ∧
    img.aspect_ratio * (img.height : ℚ) = (img.width : ℚ) := by
  unfold mkImage at heq
  split at heq
  case isFalse => cases heq
  case isTrue hw =>
    split at heq
    case isFalse => cases heq
    case isTrue hh =>
      split at heq
      next f hf =>
        cases heq
        unfold validate_format at hf
        split at hf
        case isFalse => cases hf
        case isTrue hmem =>
          cases hf
          have hq : (0 : ℚ) < (h : ℚ) := by exact_mod_cast hh
          exact ⟨hw, hh, hmem, rfl, ne_of_gt hq,
            div_mul_cancel₀ _ (ne_of_gt hq)⟩
      next hf => cases heq

/-- Concrete image produced by the C9 witness construction. -/
def witnessImage : Image := ⟨"https://a/b.png", 100, 50, 0, "png", 1⟩

/-- Witness for C9_image_invariants on a concrete construction. -/
theorem C9_witness :
    mkImage "https://a/b.png" 100 50 0 "PNG" 1 = some witnessImage ∧
    (0 < witnessImage.width ∧ 0 < witnessImage.height ∧
     witnessImage.format ∈ valid_formats ∧ witnessImage.format = strToLower "PNG" ∧
     (witnessImage.height : ℚ) ≠ 0 ∧
     witnessImage.aspect_ratio * (witnessImage.height : ℚ) = (witnessImage.width : ℚ)) :=
  ⟨by decide, C9_image_invariants "https://a/b.png" 100 50 0 "PNG" 1 witnessImage
    (by decide)⟩

/-! ### C10: extractor formats pass model validation -/

/-- C10: for every url, extract_format lands in the five-element extractor
range (a subset of the model's supported formats), is accepted unchanged by
the Image format validator, and equals the "jpg" default when no known
extension substring occurs in the lowercased url. -/
theorem C10_extract_format_accepted (url : String) :
    extract_format url ∈ ["jpg", "png", "gif", "webp", "svg"] ∧
    validate_format (extract_format url) = some (extract_format url) ∧
    ((strContains (strToLower url) ".jpg" || strContains (strToLower url) ".jpeg" ||
      strContains (strToLower url) ".png" || strContains (strToLower url) ".gif" ||
      strContains (strToLower url) ".webp" || strContains (strToLower url) ".svg")
        = false → extract_format url = "jpg") := by
  refine ⟨?_, ?_, ?_⟩
  · simp only [extract_format]
    split <;> try split
    all_goals first | decide | (split <;> try split) <;> first | decide | (split <;> decide)
  · simp only [extract_format]
    split <;> try split
    all_goals first | decide | (split <;> try split) <;> first | decide | (split <;> decide)
  · intro hall
    simp only [Bool.or_eq_false_iff] at hall
    obtain ⟨⟨⟨⟨⟨h1, h2⟩, h3⟩, h4⟩, h5⟩, h6⟩ := hall
    simp [extract_format, h1, h2, h3, h4, h5, h6]

/-- Witness for C10_extract_format_accepted: an extension-less url takes
the default. -/
theorem C10_witness :
    ((strContains (strToLower "https://e/file") ".jpg" ||
      strContains (strToLower "https://e/file") ".jpeg" ||
      strContains (strToLower "https://e/file") ".png" ||
      strContains (strToLower "https://e/file") ".gif" ||
      strContains (strToLower "https://e/file") ".webp" ||
      strContains (strToLower "https://e/file") ".svg") = false) ∧
    extract_format "https://e/file" = "jpg" :=
  ⟨by decide, (C10_extract_format_accepted "https://e/file").2.2 (by decide)⟩

end BehanceSpec
